import Mathlib

/-!
Verification development for the data-analysis tool (`src/app.py`).

The program is a single-page tool over an in-memory table (a pandas
DataFrame).  We embed the table and the cleaning / inspection / charting /
export operations shallowly:

* a `Table` is a header (column names), a parallel list of column dtypes,
  and row-major data;
* cell values are `Value.na` (missing, pandas `NaN`), rational numbers
  (`Value.num`), text (`Value.str`) or datetimes (`Value.date`, an abstract
  rational timestamp);
* each UI-triggered operation of `app.py` becomes a function on `Table`.

Machine floats are modelled by `ℚ` (exact where the claims need them) and
float `NaN` by `Value.na` / `Option.none` where it can arise.
-/

namespace DataTool

/-- A cell value.  `na` is pandas `NaN`/missing; `num` a numeric value
(floats modelled by `ℚ`); `str` text; `date` a datetime (abstract rational
timestamp, as produced by the datetime parser model below). -/
inductive Value where
  | na : Value
  | num : ℚ → Value
  | str : String → Value
  | date : ℚ → Value
deriving DecidableEq, Repr

/-- Column dtype, as pandas tracks it: `numeric` covers the int/float
dtypes selected by `select_dtypes(include=["number"])`; `object` is the
string/mixed dtype; `datetime` the datetime dtype; `category` carries its
set of categories, fixed when the column is converted (pandas validates
fill values against it). -/
inductive Dtype where
  | numeric : Dtype
  | object : Dtype
  | datetime : Dtype
  | category : List Value → Dtype
deriving DecidableEq, Repr

/-- The in-memory table: column names, per-column dtypes, row-major
values.  Mirrors the pandas DataFrame `data` of `app.py`. -/
structure Table where
  header : List String
  dtypes : List Dtype
  rows : List (List Value)
deriving DecidableEq, Repr

/-- Well-formedness: the dtype list is parallel to the header and every
row has one cell per column (a DataFrame invariant). -/
def Wf (t : Table) : Prop :=
  t.dtypes.length = t.header.length ∧ ∀ r ∈ t.rows, r.length = t.header.length

instance (t : Table) : Decidable (Wf t) := by
  unfold Wf; infer_instance

/-- The values of column `j`, top to bottom (a pandas `data[col]` series). -/
def colVals (t : Table) (j : Nat) : List Value :=
  t.rows.map (fun r => r.getD j .na)

/-- dtype of column `j`. -/
def dtypeAt (t : Table) (j : Nat) : Dtype :=
  t.dtypes.getD j .object

/-- Indices of the numeric columns, in column order
(`data.select_dtypes(include=["number"]).columns` of `app.py` lines 124
and 175, by position). -/
def numericIdxs (t : Table) : List Nat :=
  (List.range t.dtypes.length).filter (fun j => t.dtypes.getD j .object = .numeric)

/-! ### Remove Duplicate Rows (`app.py` lines 98-104)

`data.duplicated()` marks a row that equals an earlier row in all columns
(pandas treats `NaN` cells as equal for this purpose, as does our
`Value.na`); `drop_duplicates` keeps the first occurrence of each row. -/

/-- Drop the elements already seen, scanning left to right. -/
def dedupSeen {α : Type} [DecidableEq α] (seen : List α) : List α → List α
  | [] => []
  | x :: xs => if x ∈ seen then dedupSeen seen xs else x :: dedupSeen (x :: seen) xs

/-- Keep the first occurrence of each element, dropping later exact
duplicates (the effect of `DataFrame.drop_duplicates`). -/
def dedupFirst {α : Type} [DecidableEq α] (l : List α) : List α := dedupSeen [] l

/-- `data.duplicated().sum()` of line 99: how many rows duplicate an
earlier one. -/
def duplicateCount (t : Table) : Nat :=
  t.rows.length - (dedupFirst t.rows).length

/-- The "Remove Duplicate Rows" step, lines 98-104: if any duplicates
exist, replace `data` by `data.drop_duplicates()`; otherwise only an info
message is shown and the table is untouched. -/
def removeDuplicates (t : Table) : Table :=
  if duplicateCount t > 0 then { t with rows := dedupFirst t.rows } else t

/-! ### Drop rows with any missing values (`app.py` lines 115-121) -/

/-- `data.isnull().any(axis=1).sum()` of line 116. -/
def missingRowCount (t : Table) : Nat :=
  t.rows.countP (fun r => r.contains Value.na)

/-- The "Drop rows with any missing values" step, lines 115-121:
`data.dropna()` when any row has a missing cell, otherwise untouched. -/
def dropMissing (t : Table) : Table :=
  if missingRowCount t > 0 then
    { t with rows := t.rows.filter (fun r => ¬ r.contains Value.na) }
  else t

/-! ### Fill with custom value (`app.py` lines 133-137)

`fill_value` comes from `st.text_input`, so it is always a string;
`data.fillna(fill_value)` puts that string in every missing cell of every
column.  Filling a non-`object`, non-categorical column that had missing
cells with a string upcasts its dtype to `object`.  A categorical column
keeps its `category` dtype when the fill value is among its categories;
when it is not and the column has a missing cell to fill, pandas raises
("fill value must be in categories") — line 136 has no `try`/`except`, so
the run aborts and no table is produced. -/

/-- Does `data.fillna(v)` raise?  True when some categorical column has a
missing cell and the fill string is not among its categories. -/
def catFillError (t : Table) (v : String) : Bool :=
  (List.range t.dtypes.length).any (fun k =>
    match t.dtypes.getD k Dtype.object with
    | Dtype.category cats =>
      decide (Value.na ∈ colVals t k) && decide (Value.str v ∉ cats)
    | _ => false)

/-- `data.fillna(v)` with the string `v` of the text input: on success
every `na` cell becomes `str v`; a categorical column keeps its dtype,
any other non-object column that had a missing cell is upcast to
`object`; on a categorical fill violation the call raises and no table
results. -/
def fillConst (t : Table) (v : String) : Except String Table :=
  if catFillError t v then Except.error "fill value must be in categories"
  else Except.ok
    { t with
      rows := t.rows.map (List.map (fun x => if x = Value.na then Value.str v else x)),
      dtypes := (List.range t.dtypes.length).map (fun k =>
        match t.dtypes.getD k Dtype.object with
        | Dtype.category cats => Dtype.category cats
        | d => if Value.na ∈ colVals t k then Dtype.object else d) }

/-! ### Fill numeric columns with mean (`app.py` lines 123-131)

For each numeric column, if it has any missing cell, fill with
`data[col].mean()` — the mean of the non-missing values at that moment
(pandas `mean` skips `NaN`; the mean of an all-missing column is `NaN`,
modelled by `Value.na`). -/

/-- `data[col].mean()`: mean of the non-missing values, `na` when there
are none (pandas returns `NaN` there). -/
def colMean (vs : List Value) : Value :=
  let nums := vs.filterMap (fun v => match v with | Value.num q => some q | _ => none)
  if nums.length = 0 then Value.na else Value.num (nums.sum / (nums.length : ℚ))

/-- The "Fill numeric columns with mean" step, lines 123-131: every
missing cell of every numeric column receives that column's current mean;
other columns and all dtypes are untouched.  (The per-column
`isnull().any()` guard of line 127 only skips columns the fill would not
change anyway.) -/
def fillMean (t : Table) : Table :=
  { t with
    rows := t.rows.map (fun r =>
      List.zipWith (fun (dm : Dtype × Value) v =>
          if dm.1 = Dtype.numeric ∧ v = Value.na then dm.2 else v)
        (t.dtypes.zip ((List.range t.dtypes.length).map (fun j => colMean (colVals t j))))
        r) }

/-! ### Select Columns to Keep (`app.py` lines 160-167)

With a non-empty selection, `data = data[selected_cols]` keeps exactly the
chosen columns in the order given; with an empty selection only a warning
is shown and the table is untouched. -/

/-- The "Select Columns to Keep" step, lines 160-167. -/
def selectColumns (t : Table) (sel : List String) : Table :=
  if sel.isEmpty then t
  else
    { header := sel,
      dtypes := sel.map (fun n => t.dtypes.getD (t.header.indexOf n) .object),
      rows := t.rows.map (fun r => sel.map (fun n => r.getD (t.header.indexOf n) .na)) }

/-- Column lookup by name (`data[n]`): values of the first column called
`n`. -/
def colByName (t : Table) (n : String) : List Value :=
  colVals t (t.header.indexOf n)

/-! ### Schema Inspector (`app.py` lines 77-82)

`Missing %` is `data.isnull().sum().values / len(data) * 100`, rounded to
2 decimals.  The division is a numpy float division: dividing by a row
count of `0` yields `NaN` (`0 / 0`), not a finite number.  We model the
float result by `Option ℚ` with `none` for `NaN`. -/

/-- `data.isnull().sum()` for column `j`. -/
def missingCount (t : Table) (j : Nat) : Nat :=
  (colVals t j).countP (fun v => v = Value.na)

/-- numpy float division: `0 / 0` (and any `x / 0`) is not a finite
number, modelled `none`. -/
def npDiv (a b : ℚ) : Option ℚ :=
  if b = 0 then none else some (a / b)

/-- Round to 2 decimal places (numpy `.round(2)`; numpy rounds half to
even — the exact tie rule is irrelevant to the claims and we use
Mathlib's `round`). -/
def round2 (q : ℚ) : ℚ :=
  ((round (q * 100) : ℤ) : ℚ) / 100

/-- The `Missing %` entry of the Dataset Information panel for column
`j`: `(missing count / row count * 100).round(2)`, `none` when the float
division produced `NaN`. -/
def missingPct (t : Table) (j : Nat) : Option ℚ :=
  (npDiv (missingCount t j : ℚ) (t.rows.length : ℚ)).map (fun q => round2 (q * 100))

/-! ### Digits and number parsing

`pd.read_csv` and `pd.to_numeric` parse decimal numerals; `to_csv` prints
them.  We model the numeral layer explicitly over `List Char`. -/

/-- The decimal digit character for `n ≤ 9`. -/
def digitChar : Nat → Char
  | 0 => '0' | 1 => '1' | 2 => '2' | 3 => '3' | 4 => '4'
  | 5 => '5' | 6 => '6' | 7 => '7' | 8 => '8' | _ => '9'

/-- Value of a decimal digit character (0 for non-digits). -/
def digitVal : Char → Nat
  | '1' => 1 | '2' => 2 | '3' => 3 | '4' => 4 | '5' => 5
  | '6' => 6 | '7' => 7 | '8' => 8 | '9' => 9 | _ => 0

/-- Is this a decimal digit character? -/
def isDigitChar : Char → Bool
  | '0' | '1' | '2' | '3' | '4' | '5' | '6' | '7' | '8' | '9' => true
  | _ => false

/-- Decimal digits, fuel-bounded recursion (the fuel only needs to
exceed the number of digits). -/
def natToDigitsFuel : Nat → Nat → List Char
  | 0, _ => []
  | fuel + 1, n =>
    if n < 10 then [digitChar n]
    else natToDigitsFuel fuel (n / 10) ++ [digitChar (n % 10)]

/-- Decimal digits of `n`, most significant first. -/
def natToDigits (n : Nat) : List Char := natToDigitsFuel (n + 1) n

/-- Read a digit string back as a number. -/
def digitsToNat (cs : List Char) : Nat :=
  cs.foldl (fun acc c => 10 * acc + digitVal c) 0

/-- Decimal rendering of an integer, as CSV export prints int cells. -/
def renderInt (i : Int) : List Char :=
  if i < 0 then '-' :: natToDigits i.natAbs else natToDigits i.natAbs

/-- Textual form of a numeric cell.  Integer-valued cells print as their
decimal numeral (as pandas prints int columns).  Non-integer floats are
formatted by the external float formatter; we model that case by an
injective `num/den` form (no claim depends on it). -/
def renderRat (q : ℚ) : List Char :=
  if q.den = 1 then renderInt q.num
  else renderInt q.num ++ '/' :: natToDigits q.den

/-- Split a character list at every occurrence of `c` (the field/record
splitting of the CSV layer; always returns at least one part). -/
def splitOnChar (c : Char) : List Char → List (List Char)
  | [] => [[]]
  | x :: xs =>
    let r := splitOnChar c xs
    if x = c then [] :: r
    else (x :: r.headD []) :: r.tail

/-- Join parts with the separator `c`; inverse of `splitOnChar` when no
part contains `c`. -/
def joinWithChar (c : Char) : List (List Char) → List Char
  | [] => []
  | [l] => l
  | l :: ls => l ++ c :: joinWithChar c ls

/-- Parse a non-empty all-digit string. -/
def parseNatDigits (cs : List Char) : Option Nat :=
  if cs ≠ [] ∧ cs.all isDigitChar then some (digitsToNat cs) else none

/-- Parse an unsigned decimal numeral, with an optional fractional part
(`"12"`, `"12.5"`, `".5"`, `"12."`). -/
def parseUnsigned (cs : List Char) : Option ℚ :=
  match splitOnChar '.' cs with
  | [ip] =>
    match parseNatDigits ip with
    | some m => some ((m : ℚ))
    | none => none
  | [ip, fp] =>
    if (ip ++ fp) ≠ [] ∧ (ip ++ fp).all isDigitChar then
      some ((digitsToNat ip : ℚ) + (digitsToNat fp : ℚ) / ((10 : ℚ) ^ fp.length))
    else none
  | _ => none

/-- Parse a decimal numeral with optional leading minus sign — the
number syntax shared by the CSV reader's type inference and
`pd.to_numeric`.  (Scientific notation is not modelled.) -/
def parseNumber (cs : List Char) : Option ℚ :=
  match cs with
  | c :: rest => if c = '-' then (parseUnsigned rest).map (fun q => -q) else parseUnsigned cs
  | [] => parseUnsigned cs

/-- Modelled from the spec: the Loader delegates datetime parsing to the
external `pandas.to_datetime`; we model it on ISO `YYYY-MM-DD` strings,
encoding the timestamp injectively as `y*10000 + m*100 + d`. -/
def parseDate (cs : List Char) : Option ℚ :=
  match cs with
  | [y1, y2, y3, y4, '-', m1, m2, '-', d1, d2] =>
    if ([y1, y2, y3, y4, m1, m2, d1, d2]).all isDigitChar then
      some (((digitsToNat [y1, y2, y3, y4] * 10000 + digitsToNat [m1, m2] * 100 +
        digitsToNat [d1, d2] : Nat) : ℚ))
    else none
  | _ => none

/-! ### Convert Column Data Types (`app.py` lines 141-157)

The branch computes a converted column (`astype(str)`, `pd.to_numeric`,
`pd.to_datetime` or `astype("category")`) and assigns it; a conversion
error raises before the assignment, is caught by the `except`, and `data`
keeps its previous value — the step is atomic. -/

/-- The selectable target types of line 143. -/
inductive TargetType where
  | string : TargetType
  | number : TargetType
  | date : TargetType
  | category : TargetType
deriving DecidableEq, Repr

/-- The categories `astype("category")` records: the distinct non-missing
values present in the column at conversion time (pandas sorts them; order
is irrelevant to membership and not modelled). -/
def categoriesOf (vs : List Value) : List Value :=
  dedupFirst (vs.filter (fun v => v ≠ Value.na))

/-- dtype of the column `c` of `t` after a successful conversion. -/
def targetDtype (t : Table) (c : String) : TargetType → Dtype
  | TargetType.string => Dtype.object
  | TargetType.number => Dtype.numeric
  | TargetType.date => Dtype.datetime
  | TargetType.category => Dtype.category (categoriesOf (colVals t (t.header.indexOf c)))

/-- `astype(str)` on one cell: every value becomes text; pandas renders a
missing cell as the literal string `"nan"`.  Datetime cells are rendered
by the external formatter, modelled injectively. -/
def pyStr (v : Value) : Value :=
  match v with
  | Value.na => Value.str "nan"
  | Value.num q => Value.str (String.mk (renderRat q))
  | Value.str s => Value.str s
  | Value.date q => Value.str (String.mk ('t' :: 's' :: ':' :: renderRat q))

/-- `pd.to_numeric` on one cell: numbers and missing cells pass through,
strings must parse as numerals, datetimes are rejected. -/
def toNumericV : Value → Option Value
  | Value.na => some Value.na
  | Value.num q => some (Value.num q)
  | Value.str s => (parseNumber s.toList).map Value.num
  | Value.date _ => none

/-- `pd.to_datetime` on one cell: missing cells pass through, numbers are
read as epoch timestamps, strings must parse as dates. -/
def toDateV : Value → Option Value
  | Value.na => some Value.na
  | Value.num q => some (Value.date q)
  | Value.str s => (parseDate s.toList).map Value.date
  | Value.date q => some (Value.date q)

/-- Replace cell `j` of a row through `f`. -/
def setCell (j : Nat) (f : Value → Value) (r : List Value) : List Value :=
  r.set j (f (r.getD j Value.na))

/-- The "Convert Column Data Types" branch, lines 145-157: convert the
whole column or fail with an error and no change (`pd.to_numeric` /
`pd.to_datetime` are all-or-nothing; `astype(str)` and
`astype("category")` always succeed). -/
def convertColumn (t : Table) (c : String) (ty : TargetType) : Except String Table :=
  let j := t.header.indexOf c
  match ty with
  | TargetType.string =>
    Except.ok { t with dtypes := t.dtypes.set j Dtype.object,
                       rows := t.rows.map (setCell j pyStr) }
  | TargetType.number =>
    if (colVals t j).all (fun v => (toNumericV v).isSome) then
      Except.ok { t with dtypes := t.dtypes.set j Dtype.numeric,
                         rows := t.rows.map (setCell j (fun v => (toNumericV v).getD Value.na)) }
    else Except.error "Error converting column"
  | TargetType.date =>
    if (colVals t j).all (fun v => (toDateV v).isSome) then
      Except.ok { t with dtypes := t.dtypes.set j Dtype.datetime,
                         rows := t.rows.map (setCell j (fun v => (toDateV v).getD Value.na)) }
    else Except.error "Error converting column"
  | TargetType.category =>
    Except.ok { t with dtypes := t.dtypes.set j (Dtype.category (categoriesOf (colVals t j))) }

/-- The table kept by the UI after the Convert button: the converted
table on success, the untouched previous table on error (the `except` of
line 156 only shows a message). -/
def applyConvert (t : Table) (c : String) (ty : TargetType) : Table :=
  match convertColumn t c ty with
  | Except.ok t' => t'
  | Except.error _ => t

/-- Does a value conform to a target type's value shape?  (`category`
keeps values unchanged — only the dtype changes.) -/
def conforms (ty : TargetType) (v : Value) : Bool :=
  match ty, v with
  | TargetType.string, Value.str _ => true
  | TargetType.string, _ => false
  | TargetType.number, Value.na => true
  | TargetType.number, Value.num _ => true
  | TargetType.number, _ => false
  | TargetType.date, Value.na => true
  | TargetType.date, Value.date _ => true
  | TargetType.date, _ => false
  | TargetType.category, _ => true

/-! ### CSV export and the Loader's CSV path

`data.to_csv(index=False)` (line 254) writes a header record and one
record per row, missing cells as empty fields; `load_data` (lines 52-55)
is `pd.read_csv`, which re-infers each column's dtype: a column whose
non-empty fields all parse as numerals becomes numeric, any other column
becomes `object` with its non-empty fields kept as text.  The byte-level
escaping/quoting of fields is the external CSV codec's job (spec section
1); the hypotheses of the round-trip theorem keep all fields free of the
delimiter, quote and newline characters, where the codec is the
identity. -/

/-- Textual form of one cell in CSV export (missing cells print as the
empty field). -/
def renderCell (v : Value) : List Char :=
  match v with
  | Value.na => []
  | Value.num q => renderRat q
  | Value.str s => s.toList
  | Value.date q => 't' :: 's' :: ':' :: renderRat q

/-- `data.to_csv(index=False)` at the record level: the header record
followed by one record of rendered cells per row. -/
def toCsvRecords (t : Table) : List (List (List Char)) :=
  (t.header.map String.toList) :: t.rows.map (fun r => r.map renderCell)

/-- `data.to_csv(index=False)`: records joined by commas and newlines,
with a trailing newline. -/
def toCsvString (t : Table) : String :=
  String.mk (joinWithChar '\n' ((toCsvRecords t).map (joinWithChar ',')) ++ ['\n'])

/-- May this field sit in a numeric column? (empty = missing, or a
numeral). -/
def cellNumericOk (cs : List Char) : Bool :=
  cs.isEmpty || (parseNumber cs).isSome

/-- Read one field of a numeric column. -/
def mkNumCell (cs : List Char) : Value :=
  if cs.isEmpty then Value.na
  else match parseNumber cs with
    | some q => Value.num q
    | none => Value.na

/-- Read one field of an `object` column. -/
def mkObjCell (cs : List Char) : Value :=
  if cs.isEmpty then Value.na else Value.str (String.mk cs)

/-- `pd.read_csv` at the record level: first record is the header; each
column is numeric when all its fields are empty-or-numeral, `object`
otherwise. -/
def readCsvRecords (recs : List (List (List Char))) : Option Table :=
  match recs with
  | [] => none
  | header :: dataRecs =>
    if header.isEmpty then none
    else
      some { header := header.map String.mk,
             dtypes := (List.range header.length).map (fun j =>
               if (dataRecs.map (fun r => r.getD j [])).all cellNumericOk
               then Dtype.numeric else Dtype.object),
             rows := dataRecs.map (fun r => (List.range header.length).map (fun j =>
               if (dataRecs.map (fun r' => r'.getD j [])).all cellNumericOk
               then mkNumCell (r.getD j []) else mkObjCell (r.getD j []))) }

/-- The Loader's CSV path (`pd.read_csv` of line 55) on raw text: split
into lines, skip blank data lines (`skip_blank_lines`), split each line
into comma-separated fields, and read the records. -/
def readCsvString (s : String) : Option Table :=
  match splitOnChar '\n' s.toList with
  | [] => none
  | headerLine :: dataLines =>
    readCsvRecords ((headerLine :: dataLines.filter (fun l => ¬ l.isEmpty)).map (splitOnChar ','))

/-- Is this cell missing or an integer-valued number?  (The value class
whose CSV text re-infers to exactly the original cell.) -/
def isIntOrNa (v : Value) : Bool :=
  match v with
  | Value.na => true
  | Value.num q => q.den = 1
  | _ => false

/-! ### Correlation Matrix (`app.py` lines 174-242)

The whole visualization section is gated on `len(numeric_columns) >= 1`
(line 176) — with no numeric column a warning replaces every chart.  The
"Correlation Matrix" branch (lines 228-237) computes
`data[numeric_columns].corr()`: the pairwise Pearson correlation over the
numeric columns, each pair over its jointly non-missing observations. -/

/-- The numeric values of a column. -/
def numsOf (vs : List Value) : List ℚ :=
  vs.filterMap (fun v => match v with | Value.num q => some q | _ => none)

/-- Jointly non-missing numeric observations of two columns (pandas
`corr` uses pairwise-complete observations). -/
def pairObs (xs ys : List Value) : List (ℚ × ℚ) :=
  (xs.zip ys).filterMap (fun p => match p with
    | (Value.num a, Value.num b) => some (a, b)
    | _ => none)

/-- Mean of a list of rationals. -/
def qMean (l : List ℚ) : ℚ := l.sum / (l.length : ℚ)

/-- Centered cross-product sum `Σ (xᵢ - x̄)(yᵢ - ȳ)` of paired
observations. -/
def sxy (ps : List (ℚ × ℚ)) : ℚ :=
  (ps.map (fun p => (p.1 - qMean (ps.map Prod.fst)) * (p.2 - qMean (ps.map Prod.snd)))).sum

/-- Centered sum of squares of the first components. -/
def sxx (ps : List (ℚ × ℚ)) : ℚ := sxy (ps.map (fun p => (p.1, p.1)))

/-- Centered sum of squares of the second components. -/
def syy (ps : List (ℚ × ℚ)) : ℚ := sxy (ps.map (fun p => (p.2, p.2)))

/-- Pearson correlation of paired observations,
`Sxy / sqrt (Sxx * Syy)`. -/
noncomputable def pearson (ps : List (ℚ × ℚ)) : ℝ :=
  ((sxy ps : ℚ) : ℝ) / Real.sqrt (((sxx ps : ℚ) : ℝ) * ((syy ps : ℚ) : ℝ))

/-- `data[numeric_columns].corr()` of line 230: the Pearson matrix over
the numeric columns, in column order. -/
noncomputable def corrMatrix (t : Table) : List (List ℝ) :=
  (numericIdxs t).map (fun j => (numericIdxs t).map (fun k =>
    pearson (pairObs (colVals t j) (colVals t k))))

/-- Requesting the Correlation Matrix chart: the section gate of line 176
admits any table with at least one numeric column and otherwise shows the
"needs numeric columns" warning (`app.py` line 242). -/
noncomputable def corrMatrixStep (t : Table) : Except String (List (List ℝ)) :=
  if 1 ≤ (numericIdxs t).length then Except.ok (corrMatrix t)
  else Except.error "Your dataset needs numeric columns for visualization."

/-- Centered sum of squares of a column's non-missing values (zero iff
the column has no variance). -/
def colVariance (t : Table) (j : Nat) : ℚ :=
  sxx (pairObs (colVals t j) (colVals t j))

/-! ### Lemmas about `dedupFirst` -/

theorem dedupSeen_sublist {α : Type} [DecidableEq α] (seen l : List α) :
    List.Sublist (dedupSeen seen l) l := by
  induction l generalizing seen with
  | nil => simp [dedupSeen]
  | cons x xs ih =>
    rw [dedupSeen]
    split
    · exact (ih seen).trans (List.sublist_cons_self x xs)
    · exact (ih (x :: seen)).cons₂ x

theorem dedupSeen_not_mem_seen {α : Type} [DecidableEq α] (seen l : List α) (a : α)
    (ha : a ∈ dedupSeen seen l) : a ∉ seen := by
  induction l generalizing seen with
  | nil => simp [dedupSeen] at ha
  | cons x xs ih =>
    rw [dedupSeen] at ha
    by_cases hx : x ∈ seen
    · rw [if_pos hx] at ha
      exact ih seen ha
    · rw [if_neg hx] at ha
      rcases List.mem_cons.mp ha with rfl | h
      · exact hx
      · intro hs
        exact (ih (x :: seen) h) (List.mem_cons_of_mem x hs)

theorem nodup_dedupSeen {α : Type} [DecidableEq α] (seen l : List α) :
    (dedupSeen seen l).Nodup := by
  induction l generalizing seen with
  | nil => simp [dedupSeen]
  | cons x xs ih =>
    rw [dedupSeen]
    split
    · exact ih seen
    · refine List.Nodup.cons (fun hx => ?_) (ih (x :: seen))
      exact (dedupSeen_not_mem_seen _ _ _ hx) (List.mem_cons_self x seen)

theorem dedupSeen_eq_self {α : Type} [DecidableEq α] (seen l : List α) (hnd : l.Nodup)
    (hdisj : ∀ a ∈ l, a ∉ seen) : dedupSeen seen l = l := by
  induction l generalizing seen with
  | nil => rfl
  | cons x xs ih =>
    rw [dedupSeen, if_neg (hdisj x (List.mem_cons_self x xs))]
    congr 1
    refine ih (x :: seen) (List.nodup_cons.mp hnd).2 (fun a ha => ?_)
    intro h
    rcases List.mem_cons.mp h with rfl | hs
    · exact (List.nodup_cons.mp hnd).1 ha
    · exact hdisj a (List.mem_cons_of_mem _ ha) hs

theorem dedupFirst_sublist {α : Type} [DecidableEq α] (l : List α) :
    List.Sublist (dedupFirst l) l :=
  dedupSeen_sublist [] l

theorem nodup_dedupFirst {α : Type} [DecidableEq α] (l : List α) :
    (dedupFirst l).Nodup :=
  nodup_dedupSeen [] l

theorem dedupFirst_eq_self {α : Type} [DecidableEq α] (l : List α) :
    l.Nodup → dedupFirst l = l := fun h =>
  dedupSeen_eq_self [] l h (by simp)

theorem dedupFirst_length_le {α : Type} [DecidableEq α] (l : List α) :
    (dedupFirst l).length ≤ l.length :=
  (dedupFirst_sublist l).length_le

theorem removeDuplicates_rows (t : Table) :
    (removeDuplicates t).rows = dedupFirst t.rows := by
  unfold removeDuplicates duplicateCount
  split
  · rfl
  · next h =>
    have h0 : t.rows.length - (dedupFirst t.rows).length = 0 := Nat.eq_zero_of_not_pos h
    have hle : t.rows.length ≤ (dedupFirst t.rows).length := Nat.sub_eq_zero_iff_le.mp h0
    exact ((dedupFirst_sublist t.rows).eq_of_length
      (le_antisymm (dedupFirst_length_le t.rows) hle)).symm

theorem removeDuplicates_header (t : Table) :
    (removeDuplicates t).header = t.header := by
  unfold removeDuplicates; split <;> rfl

theorem removeDuplicates_dtypes (t : Table) :
    (removeDuplicates t).dtypes = t.dtypes := by
  unfold removeDuplicates; split <;> rfl

theorem removeDuplicates_eq_self_of_count (t : Table) (h : duplicateCount t = 0) :
    removeDuplicates t = t := by
  unfold removeDuplicates
  rw [h]
  simp

/-- C4: RemoveDuplicates is idempotent — applying it twice yields the same
table as applying it once, and a second application removes 0 rows (after
one pass no row duplicates an earlier one). -/
theorem removeDuplicates_idem (t : Table) :
    removeDuplicates (removeDuplicates t) = removeDuplicates t ∧
    duplicateCount (removeDuplicates t) = 0 := by
  have hcount : duplicateCount (removeDuplicates t) = 0 := by
    unfold duplicateCount
    rw [removeDuplicates_rows, dedupFirst_eq_self _ (nodup_dedupFirst t.rows), Nat.sub_self]
  exact ⟨removeDuplicates_eq_self_of_count _ hcount, hcount⟩

/-- C6 counterexample: filling the missing cell of a categorical column
with a value outside its categories makes `data.fillna` raise — the step
produces no table at all, so it cannot produce a missing-free one, even
for a non-empty fill value. -/
theorem fillConst_category_error :
    fillConst ⟨["c"], [Dtype.category [Value.str "a"]],
        [[Value.str "a"], [Value.na]]⟩ "0" =
      Except.error "fill value must be in categories" ∧ ("0" : String) ≠ "" :=
  ⟨rfl, by decide⟩

/-- C6 (amended): whenever `data.fillna` succeeds — in particular on any
table with no categorical column whose missing cells reject the value —
the result has zero missing values: every missing cell of every column
becomes the (non-empty) fill string, applied as given with no coercion. -/
theorem fillConst_no_missing (t : Table) (v : String) (t' : Table) (hv : v ≠ "")
    (hok : fillConst t v = Except.ok t') :
    (∀ r ∈ t'.rows, Value.na ∉ r) ∧
    t'.rows =
      t.rows.map (List.map (fun x => if x = Value.na then Value.str v else x)) := by
  unfold fillConst at hok
  split at hok
  · exact absurd hok (by simp)
  · rw [Except.ok.injEq] at hok
    subst hok
    refine ⟨?_, rfl⟩
    intro r hr hna
    simp only [List.mem_map] at hr
    obtain ⟨r0, _, rfl⟩ := hr
    simp only [List.mem_map] at hna
    obtain ⟨x, _, hfx⟩ := hna
    by_cases h : x = Value.na <;> simp [h] at hfx

/-- C6 witness: filling the table with a missing numeric cell and a
missing text cell with "0" succeeds and leaves no missing values. -/
theorem fillConst_no_missing_witness :
    (∀ r ∈ [[Value.str "0", Value.str "u"], [Value.num 1, Value.str "0"]], Value.na ∉ r) ∧
    ([[Value.str "0", Value.str "u"], [Value.num 1, Value.str "0"]] :
        List (List Value)) =
      (⟨["a", "b"], [Dtype.numeric, Dtype.object],
        [[Value.na, Value.str "u"], [Value.num 1, Value.na]]⟩ : Table).rows.map
        (List.map (fun x => if x = Value.na then Value.str "0" else x)) :=
  fillConst_no_missing ⟨["a", "b"], [Dtype.numeric, Dtype.object],
      [[Value.na, Value.str "u"], [Value.num 1, Value.na]]⟩ "0"
    ⟨["a", "b"], [Dtype.object, Dtype.object],
      [[Value.str "0", Value.str "u"], [Value.num 1, Value.str "0"]]⟩
    (by decide) rfl

/-- C8: with zero rows the Schema Inspector's `Missing %` divides the
missing count by a row count of 0, so the reported percentage of every
column is `NaN` (`none`), not a finite number. -/
theorem missingPct_nan_on_empty (t : Table) (j : Nat) (h : t.rows = []) :
    missingPct t j = none := by
  simp [missingPct, npDiv, h]

/-- C8 witness: for a concrete empty one-column table the Missing % of
column 0 is `NaN`. -/
theorem missingPct_nan_on_empty_witness :
    missingPct ⟨["a"], [Dtype.numeric], []⟩ 0 = none :=
  missingPct_nan_on_empty ⟨["a"], [Dtype.numeric], []⟩ 0 rfl

/-- C9 counterexample: a table whose numeric column has a missing cell
but which also carries a categorical column rejecting the fill value:
`data.fillna` raises, no table results, and nothing leaves the numeric
column set. -/
theorem fillConst_numeric_error :
    dtypeAt ⟨["x", "c"], [Dtype.numeric, Dtype.category [Value.str "a"]],
        [[Value.na, Value.str "a"], [Value.num 1, Value.na]]⟩ 0 = Dtype.numeric ∧
    Value.na ∈ colVals ⟨["x", "c"], [Dtype.numeric, Dtype.category [Value.str "a"]],
        [[Value.na, Value.str "a"], [Value.num 1, Value.na]]⟩ 0 ∧
    fillConst ⟨["x", "c"], [Dtype.numeric, Dtype.category [Value.str "a"]],
        [[Value.na, Value.str "a"], [Value.num 1, Value.na]]⟩ "0" =
      Except.error "fill value must be in categories" :=
  ⟨rfl, by decide, rfl⟩

/-- C9 (amended): the fill value of FillMissingWithConstant is a text
string, so whenever the fill succeeds, each numeric column that had a
missing cell is upcast to `object` — it leaves the numeric column set —
and no column joins the numeric set, so the set can only shrink;
when a categorical column rejects the value the step instead raises and
produces no table. -/
theorem fillConst_drops_numeric (t : Table) (v : String) (j : Nat) (t' : Table)
    (hw : Wf t) (hok : fillConst t v = Except.ok t')
    (hj : j < t.header.length) (hdt : dtypeAt t j = Dtype.numeric)
    (hna : Value.na ∈ colVals t j) :
    dtypeAt t' j = Dtype.object ∧
    ∀ k, dtypeAt t' k = Dtype.numeric → dtypeAt t k = Dtype.numeric := by
  unfold fillConst at hok
  split at hok
  · exact absurd hok (by simp)
  · rw [Except.ok.injEq] at hok
    subst hok
    constructor
    · have hj' : j < t.dtypes.length := hw.1 ▸ hj
      show ((List.range t.dtypes.length).map _).getD j .object = Dtype.object
      rw [List.getD_eq_getElem _ _ (by simpa using hj')]
      simp only [List.getElem_map, List.getElem_range]
      unfold dtypeAt at hdt
      rw [hdt]
      show (if Value.na ∈ colVals t j then Dtype.object else Dtype.numeric) = Dtype.object
      rw [if_pos hna]
    · intro k hk
      by_cases hkl : k < t.dtypes.length
      · unfold dtypeAt at hk ⊢
        rw [List.getD_eq_getElem _ _ (by simpa using hkl)] at hk
        simp only [List.getElem_map, List.getElem_range] at hk
        cases hdk : t.dtypes.getD k Dtype.object with
        | category cats =>
          rw [hdk] at hk
          have hk' : Dtype.category cats = Dtype.numeric := hk
          exact absurd hk' (by simp)
        | numeric => rfl
        | object =>
          rw [hdk] at hk
          have hk' : (if Value.na ∈ colVals t k then Dtype.object else Dtype.object) =
              Dtype.numeric := hk
          rw [ite_self] at hk'
          exact absurd hk' (by decide)
        | datetime =>
          rw [hdk] at hk
          have hk' : (if Value.na ∈ colVals t k then Dtype.object else Dtype.datetime) =
              Dtype.numeric := hk
          by_cases hmem : Value.na ∈ colVals t k
          · rw [if_pos hmem] at hk'
            exact absurd hk' (by decide)
          · rw [if_neg hmem] at hk'
            exact absurd hk' (by decide)
      · unfold dtypeAt at hk
        rw [List.getD_eq_default] at hk
        · exact absurd hk (by decide)
        · simpa using Nat.le_of_not_lt hkl

/-- C9 witness: a numeric column with a missing value becomes `object`
after a successful FillMissingWithConstant("0"). -/
theorem fillConst_drops_numeric_witness :
    dtypeAt ⟨["x"], [Dtype.object], [[Value.str "0"], [Value.num 1]]⟩ 0 =
      Dtype.object :=
  (fillConst_drops_numeric ⟨["x"], [Dtype.numeric], [[Value.na], [Value.num 1]]⟩ "0" 0
    ⟨["x"], [Dtype.object], [[Value.str "0"], [Value.num 1]]⟩
    (by decide) rfl (by decide) (by decide) (by decide)).1

/-- C10: SelectColumns with an empty selection leaves the table unchanged
(only a warning is shown); with a non-empty selection of existing names it
keeps exactly the selected columns, in the order given, with their
values. -/
theorem selectColumns_spec (t : Table) (sel : List String) :
    (sel = [] → selectColumns t sel = t) ∧
    (sel ≠ [] → (∀ n ∈ sel, n ∈ t.header) →
      (selectColumns t sel).header = sel ∧
      ∀ n ∈ sel, colByName (selectColumns t sel) n = colByName t n) := by
  constructor
  · intro h; simp [selectColumns, h]
  · intro hne hmem
    have hempty : sel.isEmpty = false := by
      cases sel with
      | nil => exact absurd rfl hne
      | cons a l => rfl
    have heq : selectColumns t sel =
        { header := sel,
          dtypes := sel.map (fun n => t.dtypes.getD (t.header.indexOf n) .object),
          rows := t.rows.map (fun r => sel.map (fun n => r.getD (t.header.indexOf n) .na)) } := by
      unfold selectColumns
      rw [hempty]
      rfl
    rw [heq]
    refine ⟨rfl, ?_⟩
    intro n hn
    have hi : sel.indexOf n < sel.length := List.indexOf_lt_length.mpr hn
    unfold colByName colVals
    simp only [List.map_map]
    refine List.map_congr_left (fun r _ => ?_)
    simp only [Function.comp_apply]
    rw [List.getD_eq_getElem _ _ (by simpa using hi), List.getElem_map,
      List.getElem_indexOf hi]

/-! ### Helper lemmas for column access -/

theorem getD_map_range {α : Type} (n j : Nat) (f : Nat → α) (d : α) (h : j < n) :
    ((List.range n).map f).getD j d = f j := by
  rw [List.getD_eq_getElem _ _ (by simpa using h)]
  simp

theorem zipWith_fill_getD (ds : List Dtype) (ms : List Value) (r : List Value) (j : Nat)
    (h1 : j < ds.length) (h2 : ds.length = ms.length) (h3 : ds.length = r.length) :
    (List.zipWith (fun (dm : Dtype × Value) v =>
        if dm.1 = Dtype.numeric ∧ v = Value.na then dm.2 else v) (ds.zip ms) r).getD j Value.na
      = (if ds.getD j Dtype.object = Dtype.numeric ∧ r.getD j Value.na = Value.na
          then ms.getD j Value.na else r.getD j Value.na) := by
  have hlen : (List.zipWith (fun (dm : Dtype × Value) v =>
      if dm.1 = Dtype.numeric ∧ v = Value.na then dm.2 else v) (ds.zip ms) r).length
      = ds.length := by
    simp [List.length_zipWith, List.length_zip, ← h2, ← h3]
  rw [List.getD_eq_getElem _ _ (hlen ▸ h1), List.getD_eq_getElem ds _ h1,
    List.getD_eq_getElem ms _ (h2 ▸ h1), List.getD_eq_getElem r _ (h3 ▸ h1)]
  simp [List.getElem_zipWith, List.getElem_zip]

/-- C5: FillMissingWithMean replaces, in each numeric column
independently, every missing cell with that column's mean of non-missing
values at the time of the call (pandas' `NaN` mean for an all-missing
column included), and leaves non-numeric columns unchanged. -/
theorem fillMean_spec (t : Table) (j : Nat) (hw : Wf t) (hj : j < t.header.length) :
    (dtypeAt t j = Dtype.numeric →
      colVals (fillMean t) j =
        (colVals t j).map (fun v => if v = Value.na then colMean (colVals t j) else v)) ∧
    (dtypeAt t j ≠ Dtype.numeric → colVals (fillMean t) j = colVals t j) := by
  have hdl : t.dtypes.length = t.header.length := hw.1
  have hcv : colVals (fillMean t) j = t.rows.map (fun r =>
      if dtypeAt t j = Dtype.numeric ∧ r.getD j Value.na = Value.na
        then colMean (colVals t j) else r.getD j Value.na) := by
    simp only [colVals, fillMean, List.map_map]
    refine List.map_congr_left (fun r hr => ?_)
    have hkey := zipWith_fill_getD t.dtypes
      ((List.range t.dtypes.length).map (fun k => colMean (colVals t k))) r j
      (hdl ▸ hj) (by simp) (by rw [hw.2 r hr, hdl])
    simp only [colVals] at hkey
    simp only [Function.comp_apply]
    rw [hkey, getD_map_range _ _ _ _ (hdl ▸ hj)]
    rfl
  constructor
  · intro hnum
    rw [hcv]
    simp only [colVals, List.map_map]
    exact List.map_congr_left (fun r _ => by simp [Function.comp, hnum])
  · intro hnn
    rw [hcv]
    exact List.map_congr_left (fun r _ => by simp [hnn])

/-- C5 witness: in the numeric column `x = [1, NaN, 3]` the missing cell
becomes the mean 2. -/
theorem fillMean_spec_witness :
    colVals (fillMean ⟨["x"], [Dtype.numeric],
      [[Value.num 1], [Value.na], [Value.num 3]]⟩) 0 =
      [Value.num 1, Value.num 2, Value.num 3] := by
  rw [(fillMean_spec ⟨["x"], [Dtype.numeric],
    [[Value.num 1], [Value.na], [Value.num 3]]⟩ 0 (by decide) (by decide)).1 (by decide)]
  simp only [colVals, colMean, List.map, List.getD, List.filterMap, List.sum_cons,
    List.sum_nil, List.length]
  norm_num
  decide

/-! ### Atomicity of column conversion -/

theorem conforms_pyStr (v : Value) : conforms TargetType.string (pyStr v) = true := by
  cases v <;> rfl

theorem toNumericV_conforms {v w : Value} (h : toNumericV v = some w) :
    conforms TargetType.number w = true := by
  cases v with
  | na => simp [toNumericV] at h; subst h; rfl
  | num q => simp [toNumericV] at h; subst h; rfl
  | str s =>
    simp only [toNumericV, Option.map_eq_some'] at h
    obtain ⟨q, _, rfl⟩ := h
    rfl
  | date q => simp [toNumericV] at h

theorem toDateV_conforms {v w : Value} (h : toDateV v = some w) :
    conforms TargetType.date w = true := by
  cases v with
  | na => simp [toDateV] at h; subst h; rfl
  | num q => simp [toDateV] at h; subst h; rfl
  | str s =>
    simp only [toDateV, Option.map_eq_some'] at h
    obtain ⟨q, _, rfl⟩ := h
    rfl
  | date q => simp [toDateV] at h; subst h; rfl

theorem colVals_map_setCell (rows : List (List Value)) (w j : Nat) (f : Value → Value)
    (hw : ∀ r ∈ rows, r.length = w) (hj : j < w) :
    (rows.map (setCell j f)).map (fun r => r.getD j Value.na) =
      rows.map (fun r => f (r.getD j Value.na)) := by
  rw [List.map_map]
  refine List.map_congr_left (fun r hr => ?_)
  have hrl : r.length = w := hw r hr
  simp only [Function.comp_apply, setCell]
  rw [List.getD_eq_getElem _ _ (by rw [List.length_set, hrl]; exact hj)]
  exact List.getElem_set_self _

theorem dtypeAt_set (ds : List Dtype) (j : Nat) (d : Dtype) (hj : j < ds.length) :
    (ds.set j d).getD j Dtype.object = d := by
  rw [List.getD_eq_getElem _ _ (by rw [List.length_set]; exact hj)]
  exact List.getElem_set_self _

/-- C3: ConvertColumnType on an existing column either succeeds with the
whole column coerced to the target type (value shape and dtype), or fails
and the table the UI retains is identical to the input — the step is
atomic, with no partial application. -/
theorem convertColumn_atomic (t : Table) (c : String) (ty : TargetType)
    (hw : Wf t) (hc : c ∈ t.header) :
    (∃ t', convertColumn t c ty = Except.ok t' ∧
      t'.header = t.header ∧
      dtypeAt t' (t.header.indexOf c) = targetDtype t c ty ∧
      ∀ v ∈ colVals t' (t.header.indexOf c), conforms ty v = true) ∨
    (∃ e, convertColumn t c ty = Except.error e ∧ applyConvert t c ty = t) := by
  have hj : t.header.indexOf c < t.header.length := List.indexOf_lt_length.mpr hc
  have hjd : t.header.indexOf c < t.dtypes.length := hw.1 ▸ hj
  cases ty with
  | string =>
    left
    refine ⟨{ t with
        dtypes := t.dtypes.set (t.header.indexOf c) Dtype.object,
        rows := t.rows.map (setCell (t.header.indexOf c) pyStr) },
      rfl, rfl, dtypeAt_set _ _ _ hjd, ?_⟩
    intro v hv
    simp only [colVals] at hv
    rw [colVals_map_setCell t.rows t.header.length _ pyStr hw.2 hj] at hv
    obtain ⟨r, _, rfl⟩ := List.mem_map.mp hv
    exact conforms_pyStr _
  | number =>
    by_cases hall : ((colVals t (t.header.indexOf c)).all (fun v => (toNumericV v).isSome)) = true
    · left
      refine ⟨{ t with
          dtypes := t.dtypes.set (t.header.indexOf c) Dtype.numeric,
          rows := t.rows.map (setCell (t.header.indexOf c)
            (fun v => (toNumericV v).getD Value.na)) },
        ?_, rfl, dtypeAt_set _ _ _ hjd, ?_⟩
      · simp only [convertColumn]
        rw [if_pos hall]
      · intro v hv
        simp only [colVals] at hv
        rw [colVals_map_setCell t.rows t.header.length _ _ hw.2 hj] at hv
        obtain ⟨r, hr, rfl⟩ := List.mem_map.mp hv
        have hmem : r.getD (t.header.indexOf c) Value.na ∈ colVals t (t.header.indexOf c) :=
          List.mem_map.mpr ⟨r, hr, rfl⟩
        have hs := List.all_eq_true.mp hall _ hmem
        cases heq : toNumericV (r.getD (t.header.indexOf c) Value.na) with
        | none => rw [heq] at hs; simp at hs
        | some w => exact toNumericV_conforms heq
    · right
      refine ⟨"Error converting column", ?_, ?_⟩
      · simp only [convertColumn]
        rw [if_neg hall]
      · unfold applyConvert
        simp only [convertColumn]
        rw [if_neg hall]
  | date =>
    by_cases hall : ((colVals t (t.header.indexOf c)).all (fun v => (toDateV v).isSome)) = true
    · left
      refine ⟨{ t with
          dtypes := t.dtypes.set (t.header.indexOf c) Dtype.datetime,
          rows := t.rows.map (setCell (t.header.indexOf c)
            (fun v => (toDateV v).getD Value.na)) },
        ?_, rfl, dtypeAt_set _ _ _ hjd, ?_⟩
      · simp only [convertColumn]
        rw [if_pos hall]
      · intro v hv
        simp only [colVals] at hv
        rw [colVals_map_setCell t.rows t.header.length _ _ hw.2 hj] at hv
        obtain ⟨r, hr, rfl⟩ := List.mem_map.mp hv
        have hmem : r.getD (t.header.indexOf c) Value.na ∈ colVals t (t.header.indexOf c) :=
          List.mem_map.mpr ⟨r, hr, rfl⟩
        have hs := List.all_eq_true.mp hall _ hmem
        cases heq : toDateV (r.getD (t.header.indexOf c) Value.na) with
        | none => rw [heq] at hs; simp at hs
        | some w => exact toDateV_conforms heq
    · right
      refine ⟨"Error converting column", ?_, ?_⟩
      · simp only [convertColumn]
        rw [if_neg hall]
      · unfold applyConvert
        simp only [convertColumn]
        rw [if_neg hall]
  | category =>
    left
    refine ⟨{ t with
        dtypes := t.dtypes.set (t.header.indexOf c)
          (Dtype.category (categoriesOf (colVals t (t.header.indexOf c)))) },
      rfl, rfl, dtypeAt_set _ _ _ hjd, ?_⟩
    intro v _
    rfl

/-- C3 witness: converting the text column `["1", "2x"]` to number fails
and the retained table is the input table. -/
theorem convertColumn_atomic_witness :
    (∃ t', convertColumn ⟨["a"], [Dtype.object],
        [[Value.str "1"], [Value.str "2x"]]⟩ "a" TargetType.number = Except.ok t' ∧
      t'.header = ["a"] ∧
      dtypeAt t' (["a"].indexOf "a") = targetDtype ⟨["a"], [Dtype.object],
        [[Value.str "1"], [Value.str "2x"]]⟩ "a" TargetType.number ∧
      ∀ v ∈ colVals t' (["a"].indexOf "a"), conforms TargetType.number v = true) ∨
    (∃ e, convertColumn ⟨["a"], [Dtype.object],
        [[Value.str "1"], [Value.str "2x"]]⟩ "a" TargetType.number = Except.error e ∧
      applyConvert ⟨["a"], [Dtype.object],
        [[Value.str "1"], [Value.str "2x"]]⟩ "a" TargetType.number =
        ⟨["a"], [Dtype.object], [[Value.str "1"], [Value.str "2x"]]⟩) :=
  convertColumn_atomic ⟨["a"], [Dtype.object], [[Value.str "1"], [Value.str "2x"]]⟩
    "a" TargetType.number (by decide) (by decide)

/-- C10 witness: selecting the single existing column "b" keeps exactly
that column with its values. -/
theorem selectColumns_spec_witness :
    (selectColumns ⟨["a", "b"], [Dtype.numeric, Dtype.object],
        [[Value.num 1, Value.str "u"]]⟩ ["b"]).header = ["b"] ∧
    colByName (selectColumns ⟨["a", "b"], [Dtype.numeric, Dtype.object],
        [[Value.num 1, Value.str "u"]]⟩ ["b"]) "b" = [Value.str "u"] := by
  have h := (selectColumns_spec ⟨["a", "b"], [Dtype.numeric, Dtype.object],
    [[Value.num 1, Value.str "u"]]⟩ ["b"]).2 (by decide) (by decide)
  exact ⟨h.1, by rw [h.2 "b" (by decide)]; decide⟩

/-! ### The CSV cleaning scenario (spec section 8) -/

/-- C2 counterexample: on the scenario CSV `a,b\n1,2\n1,2\n3,` the
pipeline RemoveDuplicates-then-DropMissing does not end with 0 rows (the
complete row `1,2` survives). -/
theorem csvScenario_count_ne_zero :
    (readCsvString "a,b\n1,2\n1,2\n3,").map
      (fun t0 => (dropMissing (removeDuplicates t0)).rows.length) ≠ some 0 := by
  decide

/-- C2 (amended): parsing `a,b\n1,2\n1,2\n3,` yields three rows;
RemoveDuplicates removes exactly 1 row, DropMissing then removes exactly
1 row (the `3,` row), and the final table has 1 row — the complete row
`1,2` — not 0. -/
theorem csvScenario_pipeline :
    ∃ t0, readCsvString "a,b\n1,2\n1,2\n3," = some t0 ∧
      t0.rows.length = 3 ∧
      duplicateCount t0 = 1 ∧
      (removeDuplicates t0).rows.length = 2 ∧
      missingRowCount (removeDuplicates t0) = 1 ∧
      (dropMissing (removeDuplicates t0)).rows = [[Value.num 1, Value.num 2]] ∧
      (dropMissing (removeDuplicates t0)).rows.length = 1 :=
  ⟨⟨["a", "b"], [Dtype.numeric, Dtype.numeric],
    [[Value.num 1, Value.num 2], [Value.num 1, Value.num 2], [Value.num 3, Value.na]]⟩,
   by decide, by decide, by decide, by decide, by decide, by decide, by decide⟩

/-- C7 counterexample: the 2-row text table with column `a` holding the
strings "1" and "2" does not survive the CSV round trip — reloading
re-infers the column as numeric with values 1 and 2. -/
theorem csvRoundTrip_not_identity :
    readCsvString (toCsvString ⟨["a"], [Dtype.object], [[Value.str "1"], [Value.str "2"]]⟩)
        = some ⟨["a"], [Dtype.numeric], [[Value.num 1], [Value.num 2]]⟩ ∧
    readCsvString (toCsvString ⟨["a"], [Dtype.object], [[Value.str "1"], [Value.str "2"]]⟩)
        ≠ some ⟨["a"], [Dtype.object], [[Value.str "1"], [Value.str "2"]]⟩ :=
  ⟨by decide, by decide⟩

/-! ### Pearson correlation: symmetry and unit diagonal -/

theorem pairObs_self (xs : List Value) :
    pairObs xs xs = (numsOf xs).map (fun q => (q, q)) := by
  induction xs with
  | nil => rfl
  | cons v vs ih =>
    simp only [pairObs, numsOf, List.zip_cons_cons, List.filterMap_cons] at ih ⊢
    cases v <;> simp [ih]

theorem pairObs_swap (xs ys : List Value) :
    pairObs ys xs = (pairObs xs ys).map Prod.swap := by
  induction xs generalizing ys with
  | nil => cases ys <;> rfl
  | cons x xs ih =>
    cases ys with
    | nil => rfl
    | cons y ys =>
      simp only [pairObs, List.zip_cons_cons, List.filterMap_cons] at ih ⊢
      cases x <;> cases y <;> simp [ih ys]

theorem sxx_diag (qs : List ℚ) :
    sxx (qs.map (fun q => (q, q))) = sxy (qs.map (fun q => (q, q))) := by
  unfold sxx
  rw [List.map_map]
  rfl

theorem syy_diag (qs : List ℚ) :
    syy (qs.map (fun q => (q, q))) = sxy (qs.map (fun q => (q, q))) := by
  unfold syy
  rw [List.map_map]
  rfl

theorem sxy_diag_eq_sq (qs : List ℚ) :
    sxy (qs.map (fun q => (q, q))) =
      (qs.map (fun q => (q - qMean qs) * (q - qMean qs))).sum := by
  unfold sxy
  have h1 : (qs.map (fun q => (q, q))).map Prod.fst = qs := by
    rw [List.map_map]; exact List.map_id qs
  have h2 : (qs.map (fun q => (q, q))).map Prod.snd = qs := by
    rw [List.map_map]; exact List.map_id qs
  rw [h1, h2, List.map_map]
  rfl

theorem sxy_diag_nonneg (qs : List ℚ) :
    0 ≤ sxy (qs.map (fun q => (q, q))) := by
  rw [sxy_diag_eq_sq]
  refine List.sum_nonneg (fun x hx => ?_)
  obtain ⟨q, _, rfl⟩ := List.mem_map.mp hx
  exact mul_self_nonneg _

theorem sxy_swap (ps : List (ℚ × ℚ)) : sxy (ps.map Prod.swap) = sxy ps := by
  unfold sxy
  have h1 : (ps.map Prod.swap).map Prod.fst = ps.map Prod.snd := by
    rw [List.map_map]; rfl
  have h2 : (ps.map Prod.swap).map Prod.snd = ps.map Prod.fst := by
    rw [List.map_map]; rfl
  rw [h1, h2, List.map_map]
  congr 1
  refine List.map_congr_left (fun p _ => ?_)
  simp only [Function.comp_apply, Prod.fst_swap, Prod.snd_swap]
  ring

theorem sxx_swap (ps : List (ℚ × ℚ)) : sxx (ps.map Prod.swap) = syy ps := by
  unfold sxx syy
  rw [List.map_map]
  rfl

theorem syy_swap (ps : List (ℚ × ℚ)) : syy (ps.map Prod.swap) = sxx ps := by
  unfold sxx syy
  rw [List.map_map]
  rfl

theorem pearson_swap (ps : List (ℚ × ℚ)) :
    pearson (ps.map Prod.swap) = pearson ps := by
  unfold pearson
  rw [sxy_swap, sxx_swap, syy_swap, mul_comm (((syy ps : ℚ) : ℝ)) (((sxx ps : ℚ) : ℝ))]

theorem pearson_self (xs : List Value) (h : sxx (pairObs xs xs) ≠ 0) :
    pearson (pairObs xs xs) = 1 := by
  rw [pairObs_self] at h ⊢
  rw [sxx_diag] at h
  unfold pearson
  rw [sxx_diag, syy_diag]
  have hS : (0 : ℝ) ≤ ((sxy ((numsOf xs).map (fun q => (q, q))) : ℚ) : ℝ) := by
    exact_mod_cast sxy_diag_nonneg (numsOf xs)
  rw [Real.sqrt_mul_self hS]
  exact div_self (by exact_mod_cast h)

theorem corrMatrix_entry (t : Table) (j k : Nat)
    (hj : j < (numericIdxs t).length) (hk : k < (numericIdxs t).length) :
    ((corrMatrix t).getD j []).getD k 0 =
      pearson (pairObs (colVals t ((numericIdxs t).getD j 0))
        (colVals t ((numericIdxs t).getD k 0))) := by
  unfold corrMatrix
  simp only [List.getD_eq_getElem?_getD, List.getElem?_map]
  rw [List.getElem?_eq_getElem hj, List.getElem?_eq_getElem hk]
  simp
  rw [List.getElem?_eq_getElem hk]
  simp

/-- C1 (amended): the visualization gate requires at least 1 (not 2)
numeric columns — with none, the Correlation Matrix request ends in the
"needs numeric columns" warning; with one or more (including exactly
one, contrary to the claim) it produces the pairwise Pearson matrix over
all numeric columns, which is symmetric and carries 1.0 on the diagonal
at every numeric column with non-zero variance. -/
theorem corrMatrix_props (t : Table) :
    ((numericIdxs t).length = 0 →
      corrMatrixStep t =
        Except.error "Your dataset needs numeric columns for visualization.") ∧
    (1 ≤ (numericIdxs t).length → corrMatrixStep t = Except.ok (corrMatrix t)) ∧
    (∀ j k, j < (numericIdxs t).length → k < (numericIdxs t).length →
      ((corrMatrix t).getD j []).getD k 0 = ((corrMatrix t).getD k []).getD j 0) ∧
    (∀ j, j < (numericIdxs t).length →
      colVariance t ((numericIdxs t).getD j 0) ≠ 0 →
      ((corrMatrix t).getD j []).getD j 0 = 1) := by
  refine ⟨?_, ?_, ?_, ?_⟩
  · intro h
    unfold corrMatrixStep
    rw [h, if_neg (by omega)]
  · intro h
    unfold corrMatrixStep
    rw [if_pos h]
  · intro j k hj hk
    rw [corrMatrix_entry t j k hj hk, corrMatrix_entry t k j hk hj,
      pairObs_swap (colVals t ((numericIdxs t).getD j 0)) (colVals t ((numericIdxs t).getD k 0)),
      pearson_swap]
  · intro j hj hvar
    rw [corrMatrix_entry t j j hj hj]
    exact pearson_self _ hvar

/-- C1 witness: for a concrete 2-numeric-column table the step succeeds,
the matrix is symmetric in its off-diagonal pair, and the (0,0) entry is
1. -/
theorem corrMatrix_props_witness :
    corrMatrixStep ⟨["a", "b"], [Dtype.numeric, Dtype.numeric],
        [[Value.num 1, Value.num 2], [Value.num 3, Value.num 4]]⟩ =
      Except.ok (corrMatrix ⟨["a", "b"], [Dtype.numeric, Dtype.numeric],
        [[Value.num 1, Value.num 2], [Value.num 3, Value.num 4]]⟩) ∧
    ((corrMatrix ⟨["a", "b"], [Dtype.numeric, Dtype.numeric],
        [[Value.num 1, Value.num 2], [Value.num 3, Value.num 4]]⟩).getD 0 []).getD 1 0 =
      ((corrMatrix ⟨["a", "b"], [Dtype.numeric, Dtype.numeric],
        [[Value.num 1, Value.num 2], [Value.num 3, Value.num 4]]⟩).getD 1 []).getD 0 0 ∧
    ((corrMatrix ⟨["a", "b"], [Dtype.numeric, Dtype.numeric],
        [[Value.num 1, Value.num 2], [Value.num 3, Value.num 4]]⟩).getD 0 []).getD 0 0 = 1 := by
  refine ⟨(corrMatrix_props _).2.1 (by decide),
    (corrMatrix_props _).2.2.1 0 1 (by decide) (by decide),
    (corrMatrix_props _).2.2.2 0 (by decide) ?_⟩
  show colVariance ⟨["a", "b"], [Dtype.numeric, Dtype.numeric],
    [[Value.num 1, Value.num 2], [Value.num 3, Value.num 4]]⟩ 0 ≠ 0
  unfold colVariance
  rw [pairObs_self, sxx_diag, sxy_diag_eq_sq]
  norm_num [numsOf, colVals, qMean, List.filterMap_cons, List.filterMap_nil]

/-- C1 counterexample: a table with exactly one numeric column does not
fail — the visualization gate of line 176 only requires one numeric
column, and the Correlation Matrix branch then produces its (1×1)
matrix. -/
theorem corrStep_ok_one_numeric :
    (numericIdxs ⟨["a", "b"], [Dtype.numeric, Dtype.object],
      [[Value.num 1, Value.str "u"], [Value.num 2, Value.str "v"]]⟩).length = 1 ∧
    corrMatrixStep ⟨["a", "b"], [Dtype.numeric, Dtype.object],
        [[Value.num 1, Value.str "u"], [Value.num 2, Value.str "v"]]⟩ =
      Except.ok (corrMatrix ⟨["a", "b"], [Dtype.numeric, Dtype.object],
        [[Value.num 1, Value.str "u"], [Value.num 2, Value.str "v"]]⟩) := by
  refine ⟨by decide, ?_⟩
  unfold corrMatrixStep
  rw [if_pos (by decide)]

/-! ### Splitting and joining lines/fields -/

theorem splitOnChar_of_not_mem {c : Char} {l : List Char} (h : c ∉ l) :
    splitOnChar c l = [l] := by
  induction l with
  | nil => rfl
  | cons x xs ih =>
    have hx : x ≠ c := fun hxc => h (hxc ▸ List.mem_cons_self x xs)
    have hxs : c ∉ xs := fun hm => h (List.mem_cons_of_mem x hm)
    rw [splitOnChar]
    simp only [if_neg hx, ih hxs]
    rfl

theorem splitOnChar_append {c : Char} {l : List Char} (rest : List Char) (h : c ∉ l) :
    splitOnChar c (l ++ c :: rest) = l :: splitOnChar c rest := by
  induction l with
  | nil =>
    rw [List.nil_append, splitOnChar]
    simp
  | cons x xs ih =>
    have hx : x ≠ c := fun hxc => h (hxc ▸ List.mem_cons_self x xs)
    have hxs : c ∉ xs := fun hm => h (List.mem_cons_of_mem x hm)
    rw [List.cons_append, splitOnChar]
    simp only [if_neg hx, ih hxs]
    rfl

theorem splitOnChar_joinWithChar {c : Char} :
    ∀ {ls : List (List Char)}, ls ≠ [] → (∀ l ∈ ls, c ∉ l) →
      splitOnChar c (joinWithChar c ls) = ls := by
  intro ls
  induction ls with
  | nil => intro h; exact absurd rfl h
  | cons l ls ih =>
    intro _ hmem
    cases ls with
    | nil =>
      rw [joinWithChar]
      exact splitOnChar_of_not_mem (hmem l (List.mem_cons_self l []))
    | cons l2 rest =>
      have hih := ih (List.cons_ne_nil l2 rest)
        (fun x hx => hmem x (List.mem_cons_of_mem l hx))
      rw [joinWithChar, splitOnChar_append _ (hmem l (List.mem_cons_self l _)), hih]
      exact List.cons_ne_nil l2 rest

theorem joinWithChar_append_singleton {c : Char} :
    ∀ {ls : List (List Char)} (x : List Char), ls ≠ [] →
      joinWithChar c (ls ++ [x]) = joinWithChar c ls ++ c :: x := by
  intro ls
  induction ls with
  | nil => intro x h; exact absurd rfl h
  | cons l ls ih =>
    intro x _
    cases ls with
    | nil => rfl
    | cons l2 rest =>
      show l ++ c :: joinWithChar c (l2 :: rest ++ [x]) =
        (l ++ c :: joinWithChar c (l2 :: rest)) ++ c :: x
      rw [ih x (List.cons_ne_nil _ _)]
      simp

/-! ### Decimal numerals round-trip -/

theorem digitVal_digitChar {d : Nat} (h : d < 10) : digitVal (digitChar d) = d := by
  interval_cases d <;> rfl

theorem isDigitChar_digitChar {d : Nat} (h : d < 10) : isDigitChar (digitChar d) = true := by
  interval_cases d <;> rfl

theorem digitsToNat_append_singleton (l : List Char) (ch : Char) :
    digitsToNat (l ++ [ch]) = 10 * digitsToNat l + digitVal ch := by
  unfold digitsToNat
  rw [List.foldl_append]
  rfl

theorem natToDigitsFuel_spec :
    ∀ (fuel n : Nat), n < fuel →
      natToDigitsFuel fuel n ≠ [] ∧
      (∀ ch ∈ natToDigitsFuel fuel n, isDigitChar ch = true) ∧
      digitsToNat (natToDigitsFuel fuel n) = n := by
  intro fuel
  induction fuel with
  | zero => intro n hn; omega
  | succ fuel ih =>
    intro n hn
    rw [natToDigitsFuel]
    by_cases h10 : n < 10
    · rw [if_pos h10]
      refine ⟨by simp, ?_, ?_⟩
      · intro ch hch
        rw [List.mem_singleton] at hch
        exact hch ▸ isDigitChar_digitChar h10
      · show digitsToNat ([] ++ [digitChar n]) = n
        rw [digitsToNat_append_singleton]
        simp [digitsToNat, digitVal_digitChar h10]
    · rw [if_neg h10]
      have hdiv : n / 10 < fuel := by
        have h1 : n / 10 < n := Nat.div_lt_self (by omega) (by omega)
        omega
      obtain ⟨hne, hdig, hval⟩ := ih (n / 10) hdiv
      refine ⟨by simp, ?_, ?_⟩
      · intro ch hch
        rcases List.mem_append.mp hch with h | h
        · exact hdig ch h
        · rw [List.mem_singleton] at h
          exact h ▸ isDigitChar_digitChar (Nat.mod_lt n (by omega))
      · rw [digitsToNat_append_singleton, hval, digitVal_digitChar (Nat.mod_lt n (by omega))]
        omega

theorem natToDigits_ne_nil (n : Nat) : natToDigits n ≠ [] :=
  (natToDigitsFuel_spec (n + 1) n (Nat.lt_succ_self n)).1

theorem natToDigits_all_digits (n : Nat) :
    ∀ ch ∈ natToDigits n, isDigitChar ch = true :=
  (natToDigitsFuel_spec (n + 1) n (Nat.lt_succ_self n)).2.1

theorem digitsToNat_natToDigits (n : Nat) : digitsToNat (natToDigits n) = n :=
  (natToDigitsFuel_spec (n + 1) n (Nat.lt_succ_self n)).2.2

theorem parseNatDigits_natToDigits (n : Nat) :
    parseNatDigits (natToDigits n) = some n := by
  unfold parseNatDigits
  rw [if_pos ⟨natToDigits_ne_nil n, List.all_eq_true.mpr (natToDigits_all_digits n)⟩,
    digitsToNat_natToDigits]

theorem parseUnsigned_natToDigits (n : Nat) :
    parseUnsigned (natToDigits n) = some ((n : ℚ)) := by
  unfold parseUnsigned
  have hdot : '.' ∉ natToDigits n := by
    intro h
    have := natToDigits_all_digits n '.' h
    simp [isDigitChar] at this
  rw [splitOnChar_of_not_mem hdot]
  show (match parseNatDigits (natToDigits n) with
    | some m => some ((m : ℚ)) | none => none) = some ((n : ℚ))
  rw [parseNatDigits_natToDigits]

theorem parseNumber_renderInt (i : Int) :
    parseNumber (renderInt i) = some ((i : ℚ)) := by
  unfold renderInt
  by_cases hneg : i < 0
  · rw [if_pos hneg]
    show parseNumber ('-' :: natToDigits i.natAbs) = _
    rw [parseNumber]
    rw [if_pos rfl, parseUnsigned_natToDigits]
    simp only [Option.map_some']
    congr 1
    have h : (i.natAbs : ℤ) = -i := by omega
    have h4 : ((i.natAbs : ℤ) : ℚ) = ((-i : ℤ) : ℚ) := by rw [h]
    simp only [Int.cast_natCast, Int.cast_neg] at h4
    rw [h4]
    ring
  · rw [if_neg hneg]
    obtain ⟨ch, rest, hcons⟩ : ∃ ch rest, natToDigits i.natAbs = ch :: rest := by
      cases hd : natToDigits i.natAbs with
      | nil => exact absurd hd (natToDigits_ne_nil _)
      | cons a l => exact ⟨a, l, rfl⟩
    rw [hcons, parseNumber]
    have hch : ch ≠ '-' := by
      intro h
      have := natToDigits_all_digits i.natAbs ch (hcons ▸ List.mem_cons_self ch rest)
      rw [h] at this
      simp [isDigitChar] at this
    rw [if_neg hch, ← hcons, parseUnsigned_natToDigits]
    congr 1
    have h : (i.natAbs : ℤ) = i := by omega
    have h4 : ((i.natAbs : ℤ) : ℚ) = ((i : ℤ) : ℚ) := by rw [h]
    simp only [Int.cast_natCast] at h4
    exact h4

/-! ### Cells that survive re-inference -/

theorem intOrNa_cases {v : Value} (h : isIntOrNa v = true) :
    v = Value.na ∨ ∃ i : ℤ, v = Value.num ((i : ℚ)) := by
  cases v with
  | na => exact Or.inl rfl
  | num q =>
    simp only [isIntOrNa, decide_eq_true_eq] at h
    refine Or.inr ⟨q.num, ?_⟩
    congr 1
    conv_lhs => rw [← Rat.num_div_den q]
    rw [h]
    simp
  | str s => simp [isIntOrNa] at h
  | date d => simp [isIntOrNa] at h

theorem renderInt_chars (i : Int) :
    ∀ ch ∈ renderInt i, isDigitChar ch = true ∨ ch = '-' := by
  intro ch hch
  unfold renderInt at hch
  split at hch
  · rcases List.mem_cons.mp hch with rfl | h
    · exact Or.inr rfl
    · exact Or.inl (natToDigits_all_digits _ ch h)
  · exact Or.inl (natToDigits_all_digits _ ch hch)

theorem renderInt_not_mem {i : Int} {c : Char} (hdig : isDigitChar c = false)
    (hdash : c ≠ '-') : c ∉ renderInt i := by
  intro h
  rcases renderInt_chars i c h with h1 | h1
  · rw [hdig] at h1; cases h1
  · exact hdash h1

theorem renderInt_ne_nil (i : Int) : renderInt i ≠ [] := by
  unfold renderInt
  split
  · simp
  · exact natToDigits_ne_nil _

theorem renderCell_intCast (i : Int) :
    renderCell (Value.num ((i : ℚ))) = renderInt i := by
  show renderRat ((i : ℚ)) = renderInt i
  unfold renderRat
  rw [if_pos (Rat.den_intCast i), Rat.num_intCast]

theorem renderCell_no_sep {v : Value}
    (h : v = Value.na ∨ ∃ i : ℤ, v = Value.num ((i : ℚ))) {c : Char}
    (hdig : isDigitChar c = false) (hdash : c ≠ '-') : c ∉ renderCell v := by
  rcases h with rfl | ⟨i, rfl⟩
  · simp [renderCell]
  · rw [renderCell_intCast]
    exact renderInt_not_mem hdig hdash

theorem mkNumCell_renderCell {v : Value}
    (h : v = Value.na ∨ ∃ i : ℤ, v = Value.num ((i : ℚ))) :
    cellNumericOk (renderCell v) = true ∧ mkNumCell (renderCell v) = v := by
  rcases h with rfl | ⟨i, rfl⟩
  · exact ⟨rfl, rfl⟩
  · rw [renderCell_intCast]
    have hne : (renderInt i).isEmpty = false := by
      rw [List.isEmpty_eq_false]
      exact renderInt_ne_nil i
    have hparse := parseNumber_renderInt i
    constructor
    · unfold cellNumericOk
      rw [hne, hparse]
      rfl
    · unfold mkNumCell
      rw [hne, hparse]
      rfl

theorem mem_joinWithChar {c x : Char} :
    ∀ {ls : List (List Char)}, x ∈ joinWithChar c ls → x = c ∨ ∃ l ∈ ls, x ∈ l := by
  intro ls
  induction ls with
  | nil => intro h; simp [joinWithChar] at h
  | cons l ls ih =>
    cases ls with
    | nil =>
      intro h
      exact Or.inr ⟨l, by simp, h⟩
    | cons l2 rest =>
      intro h
      replace h : x ∈ l ++ c :: joinWithChar c (l2 :: rest) := h
      rcases List.mem_append.mp h with h1 | h1
      · exact Or.inr ⟨l, by simp, h1⟩
      · rcases List.mem_cons.mp h1 with rfl | h2
        · exact Or.inl rfl
        · rcases ih h2 with h3 | ⟨l3, hl3, hx⟩
          · exact Or.inl h3
          · exact Or.inr ⟨l3, List.mem_cons_of_mem l hl3, hx⟩

theorem getD_map_of_lt {α β : Type} (f : α → β) (r : List α) (j : Nat) (d : β) (d' : α)
    (h : j < r.length) : (r.map f).getD j d = f (r.getD j d') := by
  rw [List.getD_eq_getElem _ _ (by simpa using h), List.getD_eq_getElem _ _ h,
    List.getElem_map]

theorem map_range_getD {α β : Type} (d : α) (f : α → β) (r : List α) :
    (List.range r.length).map (fun j => f (r.getD j d)) = r.map f := by
  induction r with
  | nil => rfl
  | cons x xs ih =>
    rw [List.length_cons, List.range_succ_eq_map, List.map_cons, List.map_map]
    refine congrArg₂ List.cons rfl ?_
    exact ih

/-- C7 (amended): exporting to CSV and re-loading reproduces a 2-row
table exactly when the table is stable under the Loader's re-inference:
every column numeric holding only integer-valued or missing cells, header
names nonempty, duplicate-free and free of the delimiter, newline and
quote characters, and no row that would serialize as a blank line.  (In
general the round trip is not the identity — see the counterexample.) -/
theorem csvRoundTrip_identity (t : Table) (hw : Wf t)
    (hcols : t.header ≠ []) (hrows2 : t.rows.length = 2)
    (hnodup : t.header.Nodup)
    (hnames : ∀ n ∈ t.header, n.toList ≠ [] ∧
      ∀ ch ∈ n.toList, ch ≠ ',' ∧ ch ≠ '\n' ∧ ch ≠ '"')
    (hnum : ∀ d ∈ t.dtypes, d = Dtype.numeric)
    (hint : ∀ r ∈ t.rows, ∀ v ∈ r, isIntOrNa v = true)
    (hblank : ∀ r ∈ t.rows, r ≠ [Value.na]) :
    readCsvString (toCsvString t) = some t := by
  have hint' : ∀ r ∈ t.rows, ∀ v ∈ r, v = Value.na ∨ ∃ i : ℤ, v = Value.num ((i : ℚ)) :=
    fun r hr v hv => intOrNa_cases (hint r hr v hv)
  have hfield_nosep : ∀ r ∈ t.rows, ∀ cs ∈ r.map renderCell, ',' ∉ cs ∧ '\n' ∉ cs := by
    intro r hr cs hcs
    obtain ⟨v, hv, rfl⟩ := List.mem_map.mp hcs
    exact ⟨renderCell_no_sep (hint' r hr v hv) (by decide) (by decide),
           renderCell_no_sep (hint' r hr v hv) (by decide) (by decide)⟩
  have hheader_nosep : ∀ cs ∈ t.header.map String.toList, ',' ∉ cs ∧ '\n' ∉ cs := by
    intro cs hcs
    obtain ⟨n, hn, rfl⟩ := List.mem_map.mp hcs
    constructor
    · intro hc; exact ((hnames n hn).2 ',' hc).1 rfl
    · intro hc; exact ((hnames n hn).2 '\n' hc).2.1 rfl
  have hline_ne : ∀ r ∈ t.rows, joinWithChar ',' (r.map renderCell) ≠ [] := by
    intro r hr
    rcases r with _ | ⟨v, vs⟩
    · have h0 := hw.2 [] hr
      simp only [List.length_nil] at h0
      exact absurd (List.length_eq_zero.mp h0.symm) hcols
    · rcases vs with _ | ⟨v2, vs⟩
      · show renderCell v ≠ []
        rcases hint' _ hr v (by simp) with rfl | ⟨i, rfl⟩
        · exact absurd rfl (hblank _ hr)
        · rw [renderCell_intCast]
          exact renderInt_ne_nil i
      · show renderCell v ++ ',' :: joinWithChar ',' (renderCell v2 :: vs.map renderCell) ≠ []
        simp
  have hlines_nonl : ∀ l ∈ (toCsvRecords t).map (joinWithChar ','), '\n' ∉ l := by
    intro l hl
    obtain ⟨rec, hrec, rfl⟩ := List.mem_map.mp hl
    intro hnl
    rcases mem_joinWithChar hnl with h | ⟨cs, hcs, hx⟩
    · exact absurd h (by decide)
    · simp only [toCsvRecords, List.mem_cons, List.mem_map] at hrec
      rcases hrec with rfl | ⟨r, hr, rfl⟩
      · exact (hheader_nosep cs hcs).2 hx
      · exact (hfield_nosep r hr cs hcs).2 hx
  have hlines_ne : (toCsvRecords t).map (joinWithChar ',') ≠ [] := by
    simp [toCsvRecords]
  have hsplit : splitOnChar '\n' ((toCsvString t).toList) =
      ((toCsvRecords t).map (joinWithChar ',')) ++ [[]] := by
    show splitOnChar '\n'
      (joinWithChar '\n' ((toCsvRecords t).map (joinWithChar ',')) ++ ['\n']) = _
    rw [← joinWithChar_append_singleton [] hlines_ne]
    refine splitOnChar_joinWithChar (by simp) ?_
    intro l hl
    rcases List.mem_append.mp hl with h | h
    · exact hlines_nonl l h
    · rw [List.mem_singleton] at h
      subst h
      simp
  have hsplit2 : splitOnChar '\n' ((toCsvString t).toList) =
      (joinWithChar ',' (t.header.map String.toList)) ::
        ((t.rows.map (fun r => joinWithChar ',' (r.map renderCell))) ++ [[]]) := by
    rw [hsplit]
    show (joinWithChar ',' (t.header.map String.toList) ::
      (t.rows.map (fun r => r.map renderCell)).map (joinWithChar ',')) ++ [[]] = _
    rw [List.cons_append, List.map_map]
    rfl
  have hcolnum : ∀ j, ((t.rows.map (fun r => r.map renderCell)).map
      (fun r => r.getD j [])).all cellNumericOk = true := by
    intro j
    rw [List.all_eq_true]
    intro cs hcs
    rw [List.map_map] at hcs
    obtain ⟨r, hr, rfl⟩ := List.mem_map.mp hcs
    simp only [Function.comp_apply]
    by_cases hj : j < r.length
    · rw [getD_map_of_lt renderCell r j [] Value.na hj]
      have hv : r.getD j Value.na ∈ r := by
        rw [List.getD_eq_getElem _ _ hj]
        exact List.getElem_mem _
      exact (mkNumCell_renderCell (hint' r hr _ hv)).1
    · rw [List.getD_eq_default _ _ (by simpa using Nat.le_of_not_lt hj)]
      rfl
  have hread : readCsvRecords ((t.header.map String.toList) ::
      t.rows.map (fun r => r.map renderCell)) = some t := by
    have hhne : (t.header.map String.toList).isEmpty = false := by
      rw [List.isEmpty_eq_false]
      simpa using hcols
    unfold readCsvRecords
    simp only [hhne, Bool.false_eq_true, if_false]
    rw [Option.some.injEq]
    obtain ⟨hdr, dts, rws⟩ := t
    rw [Table.mk.injEq]
    refine ⟨?_, ?_, ?_⟩
    · show (hdr.map String.toList).map String.mk = hdr
      rw [List.map_map]
      exact List.map_id hdr
    · show (List.range (hdr.map String.toList).length).map _ = dts
      rw [List.length_map]
      have h1 : (List.range hdr.length).map (fun j =>
          if ((rws.map (fun r => r.map renderCell)).map (fun r => r.getD j [])).all cellNumericOk
          then Dtype.numeric else Dtype.object) =
          (List.range hdr.length).map (fun _ => Dtype.numeric) :=
        List.map_congr_left (fun j _ => by rw [if_pos (hcolnum j)])
      rw [h1, List.map_const', List.length_range]
      symm
      rw [List.eq_replicate_iff]
      exact ⟨hw.1, hnum⟩
    · show (rws.map (fun r => r.map renderCell)).map _ = rws
      rw [List.map_map]
      have hrow : ∀ r ∈ rws, ((List.range (hdr.map String.toList).length).map (fun j =>
          if ((rws.map (fun r => r.map renderCell)).map (fun r => r.getD j [])).all cellNumericOk
          then mkNumCell ((r.map renderCell).getD j [])
          else mkObjCell ((r.map renderCell).getD j []))) = r := by
        intro r hr
        have h1 : ∀ j, (if ((rws.map (fun r => r.map renderCell)).map
            (fun r => r.getD j [])).all cellNumericOk
            then mkNumCell ((r.map renderCell).getD j [])
            else mkObjCell ((r.map renderCell).getD j [])) =
            mkNumCell ((r.map renderCell).getD j []) :=
          fun j => by rw [if_pos (hcolnum j)]
        rw [List.map_congr_left (fun j _ => h1 j)]
        rw [List.length_map]
        rw [show hdr.length = r.length from (hw.2 r hr).symm]
        have h2 : (List.range r.length).map (fun j => mkNumCell ((r.map renderCell).getD j [])) =
            (List.range r.length).map (fun j => mkNumCell (renderCell (r.getD j Value.na))) := by
          refine List.map_congr_left (fun j hj => ?_)
          rw [getD_map_of_lt renderCell r j [] Value.na (List.mem_range.mp hj)]
        rw [h2, map_range_getD Value.na (fun v => mkNumCell (renderCell v)) r]
        rw [List.map_congr_left (fun v hv => (mkNumCell_renderCell (hint' r hr v hv)).2)]
        exact List.map_id' r
      refine (List.map_congr_left (fun r hr => ?_)).trans (List.map_id' rws)
      simp only [Function.comp_apply]
      exact hrow r hr
  have hfilter : ((t.rows.map (fun (r : List Value) => joinWithChar ',' (r.map renderCell))) ++ [[]]).filter
      (fun l => ¬ l.isEmpty) = t.rows.map (fun (r : List Value) => joinWithChar ',' (r.map renderCell)) := by
    rw [List.filter_append]
    have h1 : (([[]] : List (List Char))).filter (fun l => ¬ l.isEmpty) = [] := rfl
    rw [h1, List.append_nil]
    refine List.filter_eq_self.mpr ?_
    intro l hl
    obtain ⟨r, hr, rfl⟩ := List.mem_map.mp hl
    simpa using hline_ne r hr
  have hmapsplit : ((joinWithChar ',' (t.header.map String.toList)) ::
      t.rows.map (fun r => joinWithChar ',' (r.map renderCell))).map (splitOnChar ',') =
      (t.header.map String.toList) :: t.rows.map (fun r => r.map renderCell) := by
    rw [List.map_cons]
    congr 1
    · refine splitOnChar_joinWithChar (by simpa using hcols) ?_
      intro cs hcs
      exact (hheader_nosep cs hcs).1
    · rw [List.map_map]
      refine List.map_congr_left (fun r hr => ?_)
      simp only [Function.comp_apply]
      refine splitOnChar_joinWithChar ?_ ?_
      · intro hmap
        have hre : r = [] := List.map_eq_nil_iff.mp hmap
        have h0 := hw.2 r hr
        rw [hre] at h0
        simp only [List.length_nil] at h0
        exact hcols (List.length_eq_zero.mp h0.symm)
      · intro cs hcs
        exact (hfield_nosep r hr cs hcs).1
  unfold readCsvString
  rw [hsplit2]
  show readCsvRecords (((joinWithChar ',' (t.header.map String.toList)) ::
      ((t.rows.map (fun (r : List Value) => joinWithChar ',' (r.map renderCell))) ++ [[]]).filter
        (fun l => ¬ l.isEmpty)).map (splitOnChar ',')) = some t
  rw [hfilter, hmapsplit]
  exact hread

/-- C7 witness: a concrete 2-row integer table (with a missing cell and
a negative value) survives the round trip exactly. -/
theorem csvRoundTrip_identity_witness :
    readCsvString (toCsvString ⟨["a", "b"], [Dtype.numeric, Dtype.numeric],
      [[Value.num 1, Value.na], [Value.num (-2), Value.num 3]]⟩) =
      some ⟨["a", "b"], [Dtype.numeric, Dtype.numeric],
      [[Value.num 1, Value.na], [Value.num (-2), Value.num 3]]⟩ :=
  csvRoundTrip_identity _ (by decide) (by decide) (by decide) (by decide) (by decide)
    (by decide) (by decide) (by decide)

end DataTool
